import Mathlib

/-!
Shallow embedding of the 3d_interactive_graph repository (gesture-controlled
3D graph overlay) and proofs about its camera, projection, gesture
classification, dispatch and graph-loading logic.

Sources embedded:
* modules/overlay_visualizer.py — OverlayGraphVisualizer (camera state,
  rotation/zoom/reset intents, 3D→2D projection, node hit test, node drag,
  painter-algorithm render order);
* modules/gesture_detector.py — GestureDetector (pinch / fist / two-hand-zoom
  classification with per-kind previous-position tracking);
* main.py — InteractiveGraphApp.apply_gesture_to_graph (mode dispatch);
* modules/graph_visualizer.py — GraphVisualizer.load_graph_from_file.

Real-valued quantities of the Python code (floats) are modelled as real
numbers; Python int() truncation is modelled explicitly; Python dicts with a
default on lookup are modelled as total functions; fallible IO/parse steps are
modelled as Except-valued parameters.
-/

open scoped Classical

namespace IG

/-- A 3D point or vector, as held in the numpy arrays of the source. -/
structure V3 where
  x : ℝ
  y : ℝ
  z : ℝ

/-- Componentwise vector addition, as numpy `+=` on 3-arrays. -/
def V3.add (a b : V3) : V3 := ⟨a.x + b.x, a.y + b.y, a.z + b.z⟩

/-- Componentwise vector subtraction, as numpy `-` on 3-arrays. -/
def V3.sub (a b : V3) : V3 := ⟨a.x - b.x, a.y - b.y, a.z - b.z⟩

/-- Euclidean norm of a 3-vector, `np.linalg.norm`. -/
noncomputable def V3.norm (a : V3) : ℝ :=
  Real.sqrt (a.x ^ 2 + a.y ^ 2 + a.z ^ 2)

/-- Python `int(x)` applied to a float: truncation toward zero. -/
noncomputable def pyInt (x : ℝ) : ℤ :=
  if 0 ≤ x then ⌊x⌋ else ⌈x⌉

/-- `OverlayGraphVisualizer.drag_sensitivity` (set to 100 in `__init__`). -/
def drag_sensitivity : ℝ := 100

/-- `OverlayGraphVisualizer.rotate_sensitivity` (set to 2.0 in `__init__`). -/
def rotate_sensitivity : ℝ := 2.0

/-- `OverlayGraphVisualizer.zoom_sensitivity` (set to 0.1 in `__init__`). -/
def zoom_sensitivity : ℝ := 0.1

/-- `OverlayGraphVisualizer.fov` (set to 60 in `__init__`). -/
def fov : ℝ := 60

/-- Mutable state of `OverlayGraphVisualizer`: graph node ids, per-node 3D
positions, the per-node 2D screen-position cache (`node_screen_positions`,
a dict whose `.get` default `(-1000, -1000)` is folded into totality),
the selected node, and the camera parameters. -/
structure OverlayState where
  nodes : List ℕ
  node_positions : ℕ → V3
  node_screen_positions : ℕ → ℤ × ℤ
  selected_node : Option ℕ
  camera_pos : V3
  zoom_factor : ℝ
  rotation_x : ℝ
  rotation_y : ℝ
  screen_width : ℤ
  screen_height : ℤ

/-- State established by `OverlayGraphVisualizer.__init__` (the node list and
layout positions come from the external networkx sample-graph call and are
taken as parameters): camera at (0,0,8), zoom 1.5, both rotation angles 0,
640x480 screen, empty screen-position cache (every lookup hits the
`(-1000, -1000)` default), no selected node. -/
def overlayInit (nodes : List ℕ) (pos : ℕ → V3) : OverlayState :=
  { nodes := nodes
    node_positions := pos
    node_screen_positions := fun _ => (-1000, -1000)
    selected_node := none
    camera_pos := ⟨0, 0, 8⟩
    zoom_factor := 1.5
    rotation_x := 0
    rotation_y := 0
    screen_width := 640
    screen_height := 480 }

/-- `OverlayGraphVisualizer.rotate_graph(movement)`: no-op on zero movement,
otherwise `rotation_y += movement[0] * rotate_sensitivity * 0.01`,
`rotation_x += movement[1] * rotate_sensitivity * 0.01` followed by the clamp
`rotation_x = max(-pi/2, min(pi/2, rotation_x))`. -/
noncomputable def rotate_graph (movement : ℝ × ℝ) (s : OverlayState) : OverlayState :=
  if movement.1 = 0 ∧ movement.2 = 0 then s
  else
    { s with
      rotation_y := s.rotation_y + movement.1 * rotate_sensitivity * 0.01
      rotation_x :=
        max (-(Real.pi / 2))
          (min (Real.pi / 2) (s.rotation_x + movement.2 * rotate_sensitivity * 0.01)) }

/-- `OverlayGraphVisualizer.zoom_graph(zoom_factor)`: changes with
`abs(zoom_factor - 1.0) < 0.05` are ignored, otherwise the zoom factor is
multiplied by the argument and clamped by `max(0.2, min(5.0, ...))`. -/
noncomputable def zoom_graph (zf : ℝ) (s : OverlayState) : OverlayState :=
  if |zf - 1.0| < 0.05 then s
  else { s with zoom_factor := max 0.2 (min 5.0 (s.zoom_factor * zf)) }

/-- `OverlayGraphVisualizer.reset_camera()`: restores camera position,
both rotation angles, zoom and the node selection to their defaults. -/
def reset_camera (s : OverlayState) : OverlayState :=
  { s with
    camera_pos := ⟨0, 0, 8⟩
    rotation_x := 0
    rotation_y := 0
    zoom_factor := 1.5
    selected_node := none }

/-- Application of the X-axis rotation matrix `[[1,0,0],[0,c,-s],[0,s,c]]`
of `_project_3d_to_2d` to a point, with `c`, `s` the cosine and sine of the
pitch angle. -/
def rotXapp (c s : ℝ) (p : V3) : V3 :=
  ⟨p.x, c * p.y - s * p.z, s * p.y + c * p.z⟩

/-- Application of the Y-axis rotation matrix `[[c,0,s],[0,1,0],[-s,0,c]]`
of `_project_3d_to_2d` to a point, with `c`, `s` the cosine and sine of the
yaw angle. -/
def rotYapp (c s : ℝ) (p : V3) : V3 :=
  ⟨c * p.x + s * p.z, p.y, -s * p.x + c * p.z⟩

/-- `rotation_y @ rotation_x @ point_3d` of `_project_3d_to_2d`: the pitch
rotation applied first, then the yaw rotation. -/
noncomputable def rotatedPoint (st : OverlayState) (p : V3) : V3 :=
  rotYapp (Real.cos st.rotation_y) (Real.sin st.rotation_y)
    (rotXapp (Real.cos st.rotation_x) (Real.sin st.rotation_x) p)

/-- `relative_pos = rotated_point - self.camera_pos` of `_project_3d_to_2d`. -/
noncomputable def relativePos (st : OverlayState) (p : V3) : V3 :=
  (rotatedPoint st p).sub st.camera_pos

/-- `np.radians`: degrees to radians. -/
noncomputable def radians (d : ℝ) : ℝ := d * Real.pi / 180

/-- `focal_length = self.screen_height / (2 * np.tan(np.radians(self.fov / 2)))`. -/
noncomputable def focal_length (st : OverlayState) : ℝ :=
  (st.screen_height : ℝ) / (2 * Real.tan (radians (fov / 2)))

/-- `self.screen_center = (self.screen_width // 2, self.screen_height // 2)`,
kept in sync with the screen size by the source. -/
def screen_center (st : OverlayState) : ℤ × ℤ :=
  (st.screen_width / 2, st.screen_height / 2)

/-- `OverlayGraphVisualizer._project_3d_to_2d`: rotate the point by pitch then
yaw, translate by the camera position, return the off-screen marker
`(-1000, -1000)` when the camera-relative z-component is at least -0.1,
otherwise apply the perspective divide, zoom scale, screen-centre shift with
flipped Y, and truncate to ints. -/
noncomputable def project_3d_to_2d (st : OverlayState) (p : V3) : ℤ × ℤ :=
  let rel := relativePos st p
  if rel.z ≥ -0.1 then (-1000, -1000)
  else
    (pyInt (((screen_center st).1 : ℝ) +
        focal_length st * rel.x / (-rel.z) * st.zoom_factor),
      pyInt (((screen_center st).2 : ℝ) -
        focal_length st * rel.y / (-rel.z) * st.zoom_factor))

/-- Loop body of `OverlayGraphVisualizer.find_closest_node`: walk the node
list keeping the best on-screen candidate together with its screen distance
(`none` plays the role of the initial `min_distance = inf`, `closest = None`).
A node is taken only when its screen position is on screen, its distance to
the query position beats the best so far and is below 50 pixels. -/
noncomputable def fcnAux (st : OverlayState) (sp : ℤ × ℤ) :
    List ℕ → Option (ℕ × ℝ) → Option (ℕ × ℝ)
  | [], acc => acc
  | n :: ns, acc =>
    let p := st.node_screen_positions n
    if 0 ≤ p.1 ∧ p.1 < st.screen_width ∧ 0 ≤ p.2 ∧ p.2 < st.screen_height then
      let d := Real.sqrt (((p.1 - sp.1 : ℤ) : ℝ) ^ 2 + ((p.2 - sp.2 : ℤ) : ℝ) ^ 2)
      if (match acc with
          | none => True
          | some a => d < a.2) ∧ d < 50 then
        fcnAux st sp ns (some (n, d))
      else fcnAux st sp ns acc
    else fcnAux st sp ns acc

/-- `OverlayGraphVisualizer.find_closest_node(screen_position)`. -/
noncomputable def find_closest_node (st : OverlayState) (sp : ℤ × ℤ) : Option ℕ :=
  (fcnAux st sp st.nodes none).map Prod.fst

/-- `OverlayGraphVisualizer.drag_node(gesture_position, movement)`: no-op on
zero movement, otherwise scale the normalized gesture position to screen
pixels, hit-test for the closest node, and if one is found select it and add
`(movement[0] * drag_sensitivity * 0.01, -movement[1] * drag_sensitivity * 0.01, 0)`
to its 3D position. -/
noncomputable def drag_node (gesture_position movement : ℝ × ℝ)
    (st : OverlayState) : OverlayState :=
  if movement.1 = 0 ∧ movement.2 = 0 then st
  else
    let sx := pyInt (gesture_position.1 * (st.screen_width : ℝ))
    let sy := pyInt (gesture_position.2 * (st.screen_height : ℝ))
    match find_closest_node st (sx, sy) with
    | none => st
    | some cn =>
      { st with
        selected_node := some cn
        node_positions := fun n =>
          if n = cn then
            (st.node_positions n).add
              ⟨movement.1 * drag_sensitivity * 0.01,
                -movement.2 * drag_sensitivity * 0.01, 0⟩
          else st.node_positions n }

/-- A sequence of `rotate_graph` calls, first element applied first. -/
noncomputable def applyRotations (ms : List (ℝ × ℝ)) (s : OverlayState) : OverlayState :=
  ms.foldl (fun t m => rotate_graph m t) s

/-- A concrete overlay state with an empty node set, used to instantiate
general theorems at the default camera. -/
def zeroState : OverlayState := overlayInit [] (fun _ => ⟨0, 0, 0⟩)

lemma rotate_graph_rotation_y (m : ℝ × ℝ) (s : OverlayState)
    (hm : ¬(m.1 = 0 ∧ m.2 = 0)) :
    (rotate_graph m s).rotation_y = s.rotation_y + m.1 * rotate_sensitivity * 0.01 := by
  unfold rotate_graph
  rw [if_neg hm]

lemma rotate_graph_rotation_x (m : ℝ × ℝ) (s : OverlayState)
    (hm : ¬(m.1 = 0 ∧ m.2 = 0)) :
    (rotate_graph m s).rotation_x =
      max (-(Real.pi / 2))
        (min (Real.pi / 2) (s.rotation_x + m.2 * rotate_sensitivity * 0.01)) := by
  unfold rotate_graph
  rw [if_neg hm]

lemma pitch_clamp_eq_self {v : ℝ} (h1 : -(Real.pi / 2) ≤ v) (h2 : v ≤ Real.pi / 2) :
    max (-(Real.pi / 2)) (min (Real.pi / 2) v) = v := by
  rw [min_eq_right h2, max_eq_right h1]

/-- C1 (counterexample): the claim that pitch stays strictly inside the open
interval (-pi/2, pi/2) fails: from the default camera, a single
`rotate_graph` call with displacement (0, 100) drives `rotation_x` to exactly
pi/2, which is not strictly below pi/2. -/
theorem rotate_graph_pitch_hits_half_pi :
    (rotate_graph (0, 100) zeroState).rotation_x = Real.pi / 2 ∧
      ¬ (rotate_graph (0, 100) zeroState).rotation_x < Real.pi / 2 := by
  have hx : (rotate_graph (0, 100) zeroState).rotation_x = Real.pi / 2 := by
    rw [rotate_graph_rotation_x ((0 : ℝ), (100 : ℝ)) zeroState (by norm_num)]
    have harg : zeroState.rotation_x + (100 : ℝ) * rotate_sensitivity * 0.01 = 2 := by
      simp only [zeroState, overlayInit, rotate_sensitivity]
      norm_num
    rw [harg]
    have hpi4 : Real.pi ≤ 4 := Real.pi_le_four
    have hpi0 : 0 < Real.pi := Real.pi_pos
    rw [min_eq_left (by linarith), max_eq_right (by linarith)]
  exact ⟨hx, by rw [hx]; exact lt_irrefl _⟩

/-- C1 (amended): starting from any state whose pitch lies in the closed
interval [-pi/2, pi/2] (the default camera has pitch 0), after any sequence
of `rotate_graph` calls with arbitrary displacement magnitudes the pitch
`rotation_x` still lies in the closed interval [-pi/2, pi/2]. -/
theorem rotate_graph_pitch_clamped (s : OverlayState)
    (h1 : -(Real.pi / 2) ≤ s.rotation_x) (h2 : s.rotation_x ≤ Real.pi / 2)
    (ms : List (ℝ × ℝ)) :
    -(Real.pi / 2) ≤ (applyRotations ms s).rotation_x ∧
      (applyRotations ms s).rotation_x ≤ Real.pi / 2 := by
  induction ms generalizing s with
  | nil => exact ⟨h1, h2⟩
  | cons m ms ih =>
      have hstep : -(Real.pi / 2) ≤ (rotate_graph m s).rotation_x ∧
          (rotate_graph m s).rotation_x ≤ Real.pi / 2 := by
        unfold rotate_graph
        by_cases hm : m.1 = 0 ∧ m.2 = 0
        · rw [if_pos hm]; exact ⟨h1, h2⟩
        · rw [if_neg hm]
          refine ⟨le_max_left _ _, max_le ?_ (min_le_left _ _)⟩
          have := Real.pi_pos
          linarith
      have h := ih (rotate_graph m s) hstep.1 hstep.2
      simpa [applyRotations] using h

/-- C1 (witness): the amended clamp theorem applied at the default camera
state and the one-call sequence [(1, 1)]. -/
theorem rotate_graph_pitch_clamped_witness :
    (-(Real.pi / 2) ≤ zeroState.rotation_x ∧ zeroState.rotation_x ≤ Real.pi / 2) ∧
      (-(Real.pi / 2) ≤ (applyRotations [((1 : ℝ), (1 : ℝ))] zeroState).rotation_x ∧
        (applyRotations [((1 : ℝ), (1 : ℝ))] zeroState).rotation_x ≤ Real.pi / 2) := by
  have h0 : zeroState.rotation_x = 0 := rfl
  have hpi := Real.pi_pos
  have hb1 : -(Real.pi / 2) ≤ zeroState.rotation_x := by rw [h0]; linarith
  have hb2 : zeroState.rotation_x ≤ Real.pi / 2 := by rw [h0]; linarith
  exact ⟨⟨hb1, hb2⟩, rotate_graph_pitch_clamped zeroState hb1 hb2 [((1 : ℝ), (1 : ℝ))]⟩

/-- C2 (counterexample): applying `rotate_graph` with displacement (0.1, 0.1)
twice from the default camera yields yaw 0.004, which is not the claimed
`0.2 * rotate_sensitivity` (= 0.4): the claim omits the 0.01 scale factor of
the code. -/
theorem rotate_twice_yaw_ne_claimed :
    (rotate_graph (0.1, 0.1) (rotate_graph (0.1, 0.1) zeroState)).rotation_y ≠
      0.2 * rotate_sensitivity := by
  have hm : ¬(((0.1 : ℝ), (0.1 : ℝ)).1 = 0 ∧ ((0.1 : ℝ), (0.1 : ℝ)).2 = 0) := by norm_num
  rw [rotate_graph_rotation_y _ _ hm, rotate_graph_rotation_y _ _ hm]
  have h0 : zeroState.rotation_y = 0 := rfl
  rw [h0]
  simp only [rotate_sensitivity]
  norm_num

/-- C2 (amended): from any default-camera state (yaw = 0, pitch = 0),
applying `rotate_graph` with displacement (0.1, 0.1) twice yields yaw
`rotation_y = 0.2 * rotate_sensitivity * 0.01` (= 0.004), and the pitch is
likewise `0.2 * rotate_sensitivity * 0.01`, the clamp being inactive at this
magnitude. -/
theorem rotate_twice_default_camera (s : OverlayState)
    (hy : s.rotation_y = 0) (hx : s.rotation_x = 0) :
    (rotate_graph (0.1, 0.1) (rotate_graph (0.1, 0.1) s)).rotation_y
        = 0.2 * rotate_sensitivity * 0.01 ∧
      (rotate_graph (0.1, 0.1) (rotate_graph (0.1, 0.1) s)).rotation_x
        = 0.2 * rotate_sensitivity * 0.01 := by
  have hm : ¬(((0.1 : ℝ), (0.1 : ℝ)).1 = 0 ∧ ((0.1 : ℝ), (0.1 : ℝ)).2 = 0) := by norm_num
  have hpi3 : 3 < Real.pi := Real.pi_gt_three
  constructor
  · rw [rotate_graph_rotation_y _ _ hm, rotate_graph_rotation_y _ _ hm, hy]
    simp only [rotate_sensitivity]
    norm_num
  · have hs1 : (rotate_graph (0.1, 0.1) s).rotation_x = 0.002 := by
      rw [rotate_graph_rotation_x _ _ hm, hx]
      have h1 : (0 : ℝ) + ((0.1 : ℝ), (0.1 : ℝ)).2 * rotate_sensitivity * 0.01 = 0.002 := by
        simp only [rotate_sensitivity]; norm_num
      rw [h1]
      exact pitch_clamp_eq_self (by linarith) (by linarith)
    rw [rotate_graph_rotation_x _ _ hm, hs1]
    have h2 : (0.002 : ℝ) + ((0.1 : ℝ), (0.1 : ℝ)).2 * rotate_sensitivity * 0.01 = 0.004 := by
      simp only [rotate_sensitivity]; norm_num
    rw [h2, pitch_clamp_eq_self (by linarith) (by linarith)]
    simp only [rotate_sensitivity]
    norm_num

/-- C2 (witness): the amended two-rotation theorem applied at the concrete
default-camera state. -/
theorem rotate_twice_default_camera_witness :
    (zeroState.rotation_y = 0 ∧ zeroState.rotation_x = 0) ∧
      ((rotate_graph (0.1, 0.1) (rotate_graph (0.1, 0.1) zeroState)).rotation_y
          = 0.2 * rotate_sensitivity * 0.01 ∧
        (rotate_graph (0.1, 0.1) (rotate_graph (0.1, 0.1) zeroState)).rotation_x
          = 0.2 * rotate_sensitivity * 0.01) :=
  ⟨⟨rfl, rfl⟩, rotate_twice_default_camera zeroState rfl rfl⟩

/-- C3: for every state and every 3D point whose camera-relative z-component
after rotation and translation is at least -0.1 (camera-relative depth at
most 0.1), `project_3d_to_2d` returns the off-screen sentinel
`(-1000, -1000)`; no perspective divide takes place and no other coordinate
is ever returned for such a point. -/
theorem project_behind_camera_sentinel (st : OverlayState) (p : V3)
    (h : (relativePos st p).z ≥ -0.1) :
    project_3d_to_2d st p = (-1000, -1000) := by
  simp only [project_3d_to_2d]
  rw [if_pos h]

/-- C3 (witness): at the default camera the point (0, 0, 8) coincides with
the camera position, its camera-relative depth is 0, and the projection
returns the sentinel. -/
theorem project_behind_camera_sentinel_witness :
    ((relativePos zeroState ⟨0, 0, 8⟩).z ≥ -0.1) ∧
      project_3d_to_2d zeroState ⟨0, 0, 8⟩ = (-1000, -1000) := by
  have h : (relativePos zeroState ⟨0, 0, 8⟩).z ≥ -0.1 := by
    simp only [relativePos, rotatedPoint, rotXapp, rotYapp, V3.sub, zeroState,
      overlayInit, Real.cos_zero, Real.sin_zero]
    norm_num
  exact ⟨h, project_behind_camera_sentinel zeroState ⟨0, 0, 8⟩ h⟩

lemma rotate_graph_zoom_factor (m : ℝ × ℝ) (s : OverlayState) :
    (rotate_graph m s).zoom_factor = s.zoom_factor := by
  unfold rotate_graph
  split <;> rfl

lemma drag_node_zoom_factor (gp mv : ℝ × ℝ) (s : OverlayState) :
    (drag_node gp mv s).zoom_factor = s.zoom_factor := by
  unfold drag_node
  split
  · rfl
  · dsimp only
    split <;> rfl

/-- The states of the overlay visualizer reachable from construction by any
sequence of `zoom_graph`, `rotate_graph`, `drag_node` and `reset_camera`
intents. -/
inductive Reachable : OverlayState → Prop where
  | init (nodes : List ℕ) (pos : ℕ → V3) : Reachable (overlayInit nodes pos)
  | zoom {s : OverlayState} (zf : ℝ) : Reachable s → Reachable (zoom_graph zf s)
  | rotate {s : OverlayState} (m : ℝ × ℝ) : Reachable s → Reachable (rotate_graph m s)
  | drag {s : OverlayState} (gp mv : ℝ × ℝ) : Reachable s → Reachable (drag_node gp mv s)
  | reset {s : OverlayState} : Reachable s → Reachable (reset_camera s)

/-- C10: in every reachable state of the overlay visualizer the zoom factor
lies in the closed interval [0.2, 5.0]: the initial value is 1.5,
`zoom_graph` either ignores the change or clamps the scaled value into
[0.2, 5.0], `reset_camera` restores 1.5, and the other intents leave the
zoom factor untouched. -/
theorem zoom_factor_in_range (s : OverlayState) (h : Reachable s) :
    0.2 ≤ s.zoom_factor ∧ s.zoom_factor ≤ 5.0 := by
  induction h with
  | init nodes pos =>
      constructor <;> norm_num [overlayInit]
  | zoom zf _ ih =>
      unfold zoom_graph
      by_cases hz : |zf - 1.0| < 0.05
      · rw [if_pos hz]; exact ih
      · rw [if_neg hz]
        exact ⟨le_max_left _ _, max_le (by norm_num) (min_le_left _ _)⟩
  | rotate m _ ih =>
      rw [rotate_graph_zoom_factor]; exact ih
  | drag gp mv _ ih =>
      rw [drag_node_zoom_factor]; exact ih
  | reset _ _ =>
      constructor <;> norm_num [reset_camera]

/-- C10 (witness): the default-constructed state is reachable and its zoom
factor 1.5 lies in [0.2, 5.0]. -/
theorem zoom_factor_in_range_witness :
    Reachable zeroState ∧
      (0.2 ≤ zeroState.zoom_factor ∧ zeroState.zoom_factor ≤ 5.0) := by
  have hr : Reachable zeroState := Reachable.init [] (fun _ => ⟨0, 0, 0⟩)
  exact ⟨hr, zoom_factor_in_range zeroState hr⟩

/-- C9: whenever the hit test at the drag gesture's screen position resolves
to node 3, applying `drag_node` with displacement (0.05, 0) adds exactly
`0.05 * drag_sensitivity * 0.01` to node 3's 3D X coordinate and leaves the
3D position of every other node unchanged. -/
theorem drag_node_hit_moves_only_target (s : OverlayState) (gp : ℝ × ℝ)
    (h : find_closest_node s
        (pyInt (gp.1 * (s.screen_width : ℝ)),
          pyInt (gp.2 * (s.screen_height : ℝ))) = some 3) :
    ((drag_node gp (0.05, 0) s).node_positions 3).x
        = (s.node_positions 3).x + 0.05 * drag_sensitivity * 0.01 ∧
      ∀ n, n ≠ 3 → (drag_node gp (0.05, 0) s).node_positions n
        = s.node_positions n := by
  unfold drag_node
  rw [if_neg (by norm_num)]
  dsimp only
  rw [h]
  constructor
  · simp [V3.add]
  · intro n hn
    simp [hn]

/-- Concrete state for the drag witness: a single node 3 whose cached screen
position is (100, 100) on a 640x480 screen. -/
def dragState : OverlayState :=
  { nodes := [3]
    node_positions := fun _ => ⟨0, 0, 0⟩
    node_screen_positions := fun _ => (100, 100)
    selected_node := none
    camera_pos := ⟨0, 0, 8⟩
    zoom_factor := 1.5
    rotation_x := 0
    rotation_y := 0
    screen_width := 640
    screen_height := 480 }

/-- Normalized gesture position that maps to screen pixel (100, 100) on the
640x480 screen of `dragState`. -/
noncomputable def dragGP : ℝ × ℝ := (100 / 640, 100 / 480)

/-- C9 (witness): on `dragState` the hit test at `dragGP` resolves to node 3
and the drag theorem applies. -/
theorem drag_node_hit_moves_only_target_witness :
    find_closest_node dragState
        (pyInt (dragGP.1 * (dragState.screen_width : ℝ)),
          pyInt (dragGP.2 * (dragState.screen_height : ℝ))) = some 3 ∧
      (((drag_node dragGP (0.05, 0) dragState).node_positions 3).x
          = (dragState.node_positions 3).x + 0.05 * drag_sensitivity * 0.01 ∧
        ∀ n, n ≠ 3 → (drag_node dragGP (0.05, 0) dragState).node_positions n
          = dragState.node_positions n) := by
  have hx : pyInt (dragGP.1 * (dragState.screen_width : ℝ)) = 100 := by
    have h1 : dragGP.1 * (dragState.screen_width : ℝ) = 100 := by
      norm_num [dragGP, dragState]
    rw [h1]
    unfold pyInt
    rw [if_pos (by norm_num)]
    simp
  have hy : pyInt (dragGP.2 * (dragState.screen_height : ℝ)) = 100 := by
    have h1 : dragGP.2 * (dragState.screen_height : ℝ) = 100 := by
      norm_num [dragGP, dragState]
    rw [h1]
    unfold pyInt
    rw [if_pos (by norm_num)]
    simp
  have hfc : find_closest_node dragState
      (pyInt (dragGP.1 * (dragState.screen_width : ℝ)),
        pyInt (dragGP.2 * (dragState.screen_height : ℝ))) = some 3 := by
    rw [hx, hy]
    unfold find_closest_node fcnAux
    norm_num [dragState, fcnAux, Real.sqrt_zero]
  exact ⟨hfc, drag_node_hit_moves_only_target dragState dragGP hfc⟩

/-- `nodes_with_z` of `OverlayGraphVisualizer._draw_nodes`: each node paired
with `np.linalg.norm(pos_3d - self.camera_pos)`, the distance from the camera
position to the node's stored (unrotated) 3D position. -/
noncomputable def nodes_with_z (st : OverlayState) : List (ℕ × ℝ) :=
  st.nodes.map (fun n => (n, ((st.node_positions n).sub st.camera_pos).norm))

/-- The node draw order of `_draw_nodes`: `nodes_with_z` sorted by distance,
farthest first (`sort(key=lambda x: x[1], reverse=True)`, a stable descending
sort), then the node ids taken in order. -/
noncomputable def render_order (st : OverlayState) : List ℕ :=
  (List.insertionSort (fun a b : ℕ × ℝ => b.2 ≤ a.2) (nodes_with_z st)).map Prod.fst

/-- Following the spec's words for C5: the camera-relative distance of a
point, computed from the position after applying the current yaw/pitch
rotation and translating into camera space. -/
noncomputable def specCameraRelativeDist (st : OverlayState) (p : V3) : ℝ :=
  (relativePos st p).norm

lemma insertionSort_pair {α : Type} (r : α → α → Prop) [DecidableRel r]
    (a b : α) (h : r a b) :
    List.insertionSort r [a, b] = [a, b] := by
  simp [List.insertionSort, List.orderedInsert, if_pos h]

/-- C5 (counterexample): with yaw pi and two nodes at (0,0,-1) and (0,0,0),
the code's render order is [0, 1], yet node 0's camera-relative distance in
the spec's sense (after rotation and translation) is 7, strictly below node
1's distance 8 — so the order is not non-increasing in rotated camera-space
distance: the code sorts by distance to the unrotated positions. -/
noncomputable def c5State : OverlayState :=
  { nodes := [0, 1]
    node_positions := fun n => if n = 0 then ⟨0, 0, -1⟩ else ⟨0, 0, 0⟩
    node_screen_positions := fun _ => (-1000, -1000)
    selected_node := none
    camera_pos := ⟨0, 0, 8⟩
    zoom_factor := 1.5
    rotation_x := 0
    rotation_y := Real.pi
    screen_width := 640
    screen_height := 480 }

/-- C5 (counterexample theorem): the render order of `c5State` violates the
claimed non-increasing rotated camera-space distance ordering. -/
theorem render_order_not_rotated_distance :
    render_order c5State = [0, 1] ∧
      specCameraRelativeDist c5State (c5State.node_positions 0) <
        specCameraRelativeDist c5State (c5State.node_positions 1) ∧
      ¬ (render_order c5State).Pairwise (fun a b =>
          specCameraRelativeDist c5State (c5State.node_positions b) ≤
            specCameraRelativeDist c5State (c5State.node_positions a)) := by
  have h81 : Real.sqrt 81 = 9 := by
    rw [show (81 : ℝ) = 9 ^ 2 by norm_num, Real.sqrt_sq (by norm_num : (0 : ℝ) ≤ 9)]
  have h64 : Real.sqrt 64 = 8 := by
    rw [show (64 : ℝ) = 8 ^ 2 by norm_num, Real.sqrt_sq (by norm_num : (0 : ℝ) ≤ 8)]
  have h49 : Real.sqrt 49 = 7 := by
    rw [show (49 : ℝ) = 7 ^ 2 by norm_num, Real.sqrt_sq (by norm_num : (0 : ℝ) ≤ 7)]
  have hn : nodes_with_z c5State = [(0, 9), (1, 8)] := by
    simp [nodes_with_z, c5State, V3.sub, V3.norm]
    norm_num [h81, h64]
  have hro : render_order c5State = [0, 1] := by
    unfold render_order
    rw [hn]
    have hle : (fun a b : ℕ × ℝ => b.2 ≤ a.2)
        ((0 : ℕ), (9 : ℝ)) ((1 : ℕ), (8 : ℝ)) := by
      show (8 : ℝ) ≤ 9
      norm_num
    rw [insertionSort_pair (fun a b : ℕ × ℝ => b.2 ≤ a.2)
      ((0 : ℕ), (9 : ℝ)) ((1 : ℕ), (8 : ℝ)) hle]
    rfl
  have hs0 : specCameraRelativeDist c5State (c5State.node_positions 0) = 7 := by
    simp [specCameraRelativeDist, relativePos, rotatedPoint, rotXapp, rotYapp,
      V3.sub, V3.norm, c5State, Real.cos_pi, Real.sin_pi, Real.cos_zero,
      Real.sin_zero]
    norm_num [h49]
  have hs1 : specCameraRelativeDist c5State (c5State.node_positions 1) = 8 := by
    simp [specCameraRelativeDist, relativePos, rotatedPoint, rotXapp, rotYapp,
      V3.sub, V3.norm, c5State, Real.cos_pi, Real.sin_pi, Real.cos_zero,
      Real.sin_zero]
  refine ⟨hro, by rw [hs0, hs1]; norm_num, ?_⟩
  intro hp
  rw [hro] at hp
  have h01 := (List.pairwise_cons.mp hp).1 1 (by simp)
  rw [hs0, hs1] at h01
  norm_num at h01

/-- C5 (amended): for every camera state, the node render order of
`_draw_nodes` is a permutation of the node list sorted in non-increasing
distance from the camera position to each node's stored (unrotated) 3D
position; the current yaw/pitch rotation is not applied when computing this
sort key. -/
theorem render_order_sorted_by_raw_camera_distance (st : OverlayState) :
    (render_order st).Pairwise (fun a b =>
        ((st.node_positions b).sub st.camera_pos).norm ≤
          ((st.node_positions a).sub st.camera_pos).norm) ∧
      List.Perm (render_order st) st.nodes := by
  haveI htot : IsTotal (ℕ × ℝ) (fun a b : ℕ × ℝ => b.2 ≤ a.2) :=
    ⟨fun a b => le_total b.2 a.2⟩
  haveI htrans : IsTrans (ℕ × ℝ) (fun a b : ℕ × ℝ => b.2 ≤ a.2) :=
    ⟨fun _ _ _ hab hbc => le_trans hbc hab⟩
  have hsorted := List.sorted_insertionSort
    (fun a b : ℕ × ℝ => b.2 ≤ a.2) (nodes_with_z st)
  have hperm := List.perm_insertionSort
    (fun a b : ℕ × ℝ => b.2 ≤ a.2) (nodes_with_z st)
  have hkey : ∀ q ∈ List.insertionSort (fun a b : ℕ × ℝ => b.2 ≤ a.2)
      (nodes_with_z st),
      q.2 = ((st.node_positions q.1).sub st.camera_pos).norm := by
    intro q hq
    have hq' : q ∈ nodes_with_z st := hperm.mem_iff.mp hq
    simp only [nodes_with_z, List.mem_map] at hq'
    obtain ⟨n, _, rfl⟩ := hq'
    rfl
  constructor
  · have hp : (List.insertionSort (fun a b : ℕ × ℝ => b.2 ≤ a.2)
        (nodes_with_z st)).Pairwise (fun a b =>
          ((st.node_positions b.1).sub st.camera_pos).norm ≤
            ((st.node_positions a.1).sub st.camera_pos).norm) := by
      refine List.Pairwise.imp_of_mem ?_ hsorted
      intro a b ha hb hr
      rw [← hkey a ha, ← hkey b hb]
      exact hr
    exact List.pairwise_map.mpr hp
  · have hbase : (nodes_with_z st).map Prod.fst = st.nodes := by
      simp [nodes_with_z, List.map_map, Function.comp_def]
    have h2 := hperm.map Prod.fst
    rw [hbase] at h2
    exact h2

/-- `GestureDetector.pinch_threshold` (0.05). -/
def pinch_threshold : ℝ := 0.05

/-- `GestureDetector.fist_threshold` (0.15). -/
def fist_threshold : ℝ := 0.15

/-- `GestureDetector.zoom_threshold` (0.1). -/
def zoom_threshold : ℝ := 0.1

/-- `GestureDetector.prev_positions`: the per-gesture-kind previous-position
dict, with one slot per key the source ever writes (`pinch`, `fist`,
`two_hand_distance`); a missing key is `Option.none`. -/
structure PrevPositions where
  pinch : Option (ℝ × ℝ)
  fist : Option (ℝ × ℝ)
  two_hand_distance : Option ℝ

/-- `GestureDetector.calculate_distance`: Euclidean distance of 2D points. -/
noncomputable def calculate_distance (p q : ℝ × ℝ) : ℝ :=
  Real.sqrt ((p.1 - q.1) ^ 2 + (p.2 - q.2) ^ 2)

/-- The gesture-event dicts returned by `GestureDetector`, as a tagged
variant: kind `none`, or `pinch`/`fist` with position, movement and
confidence, or `two_hand_zoom` with zoom factor, the two hand centres and
the current hand distance. -/
inductive Gesture where
  | none
  | pinch (position movement : ℝ × ℝ) (confidence : ℝ)
  | fist (position movement : ℝ × ℝ) (confidence : ℝ)
  | two_hand_zoom (zoom_factor : ℝ) (left_position right_position : ℝ × ℝ)
      (distance : ℝ)

/-- Centroid of the 21 landmark points of one hand, as computed inline by
`detect_fist` and `detect_two_hand_zoom` (`sum(...) / len(landmarks)`). -/
noncomputable def hand_center (lm : Fin 21 → ℝ × ℝ) : ℝ × ℝ :=
  (Finset.univ.sum (fun i : Fin 21 => (lm i).1) / 21,
    Finset.univ.sum (fun i : Fin 21 => (lm i).2) / 21)

/-- `GestureDetector.detect_pinch(landmarks)`: if the thumb-tip to
index-tip distance is below the pinch threshold, return a pinch event at the
midpoint of the tips with movement relative to the cached previous pinch
position (zero when absent) and confidence `max(0, 1 - distance/threshold)`,
updating the cache; otherwise return `None` and leave the cache alone. -/
noncomputable def detect_pinch (lm : Fin 21 → ℝ × ℝ) (prev : PrevPositions) :
    Option Gesture × PrevPositions :=
  let thumb_tip := lm 4
  let index_tip := lm 8
  let distance := calculate_distance thumb_tip index_tip
  if distance < pinch_threshold then
    let center_x := (thumb_tip.1 + index_tip.1) / 2
    let center_y := (thumb_tip.2 + index_tip.2) / 2
    let movement : ℝ × ℝ :=
      match prev.pinch with
      | Option.none => (0, 0)
      | Option.some pc => (center_x - pc.1, center_y - pc.2)
    (Option.some (Gesture.pinch (center_x, center_y) movement
        (max 0 (1 - distance / pinch_threshold))),
      { prev with pinch := Option.some (center_x, center_y) })
  else (Option.none, prev)

/-- `GestureDetector.detect_fist(landmarks)`: if the mean wrist-to-fingertip
distance over the five fingertips is below the fist threshold, return a fist
event at the centroid of all 21 points with movement relative to the cached
previous fist position and confidence `max(0, 1 - avg/threshold)`, updating
the cache; otherwise `None`. -/
noncomputable def detect_fist (lm : Fin 21 → ℝ × ℝ) (prev : PrevPositions) :
    Option Gesture × PrevPositions :=
  let palm_center := lm 0
  let avg_distance :=
    (calculate_distance palm_center (lm 4) + calculate_distance palm_center (lm 8) +
      calculate_distance palm_center (lm 12) + calculate_distance palm_center (lm 16) +
      calculate_distance palm_center (lm 20)) / 5
  if avg_distance < fist_threshold then
    let center := hand_center lm
    let movement : ℝ × ℝ :=
      match prev.fist with
      | Option.none => (0, 0)
      | Option.some pc => (center.1 - pc.1, center.2 - pc.2)
    (Option.some (Gesture.fist center movement
        (max 0 (1 - avg_distance / fist_threshold))),
      { prev with fist := Option.some center })
  else (Option.none, prev)

/-- Payload of the dict returned by `detect_two_hand_zoom`. -/
structure ZoomResult where
  zoom_factor : ℝ
  left_position : ℝ × ℝ
  right_position : ℝ × ℝ
  distance : ℝ

/-- `GestureDetector.detect_two_hand_zoom(left, right)`: the zoom factor is
the ratio of the current hand-centre distance to the cached previous one
(1.0 when no positive previous distance exists), snapped to exactly 1.0 when
its deviation from 1.0 is below the zoom threshold; the cache is overwritten
with the current distance. -/
noncomputable def detect_two_hand_zoom (left right : Fin 21 → ℝ × ℝ)
    (prev : PrevPositions) : ZoomResult × PrevPositions :=
  let left_center := hand_center left
  let right_center := hand_center right
  let current_distance := calculate_distance left_center right_center
  let zoom_factor :=
    match prev.two_hand_distance with
    | Option.none => (1 : ℝ)
    | Option.some prev_distance =>
      if 0 < prev_distance then
        if |current_distance / prev_distance - 1.0| < zoom_threshold then 1
        else current_distance / prev_distance
      else 1
  (⟨zoom_factor, left_center, right_center, current_distance⟩,
    { prev with two_hand_distance := Option.some current_distance })

/-- Single-hand path of `GestureDetector.detect_gestures`: try pinch first,
then fist, otherwise emit the `none` event. -/
noncomputable def detect_gestures_one_hand (lm : Fin 21 → ℝ × ℝ)
    (prev : PrevPositions) : Gesture × PrevPositions :=
  match detect_pinch lm prev with
  | (Option.some g, p) => (g, p)
  | (Option.none, p) =>
    match detect_fist lm p with
    | (Option.some g, p2) => (g, p2)
    | (Option.none, p2) => (Gesture.none, p2)

/-- Two-hand path of `GestureDetector.detect_gestures`: the zoom event is
forwarded only when `abs(zoom_factor - 1.0) > 0.05`, otherwise the `none`
event is emitted; the distance cache update happens either way. -/
noncomputable def detect_gestures_two_hands (left right : Fin 21 → ℝ × ℝ)
    (prev : PrevPositions) : Gesture × PrevPositions :=
  let r := detect_two_hand_zoom left right prev
  if |r.1.zoom_factor - 1.0| > 0.05 then
    (Gesture.two_hand_zoom r.1.zoom_factor r.1.left_position r.1.right_position
      r.1.distance, r.2)
  else (Gesture.none, r.2)

/-- C6: for any single-hand landmark set whose thumb tip coincides with its
index tip (distance 0) and any cache state, classification returns a pinch
event with confidence exactly 1.0 — never a fist event, whatever the other
fingers look like, because pinch is evaluated first and wins. -/
theorem classify_zero_pinch_distance (lm : Fin 21 → ℝ × ℝ) (prev : PrevPositions)
    (h : lm 4 = lm 8) :
    ∃ pos mv, (detect_gestures_one_hand lm prev).1 = Gesture.pinch pos mv 1 := by
  have hd : calculate_distance (lm 4) (lm 8) = 0 := by
    rw [h]
    simp [calculate_distance]
  have hconf : max 0 (1 - (0 : ℝ) / pinch_threshold) = 1 := by
    norm_num [pinch_threshold]
  unfold detect_gestures_one_hand detect_pinch
  dsimp only
  rw [hd, if_pos (by norm_num [pinch_threshold] : (0 : ℝ) < pinch_threshold)]
  dsimp only
  exact ⟨_, _, by rw [hconf]⟩

/-- All-zero landmark set: thumb and index tips coincide, and the hand also
satisfies the fist test, exercising the pinch-over-fist priority. -/
noncomputable def lmZero : Fin 21 → ℝ × ℝ := fun _ => (0, 0)

/-- Empty previous-position cache (fresh detector). -/
def prevEmpty : PrevPositions := ⟨Option.none, Option.none, Option.none⟩

/-- C6 (witness): the zero landmark set at the fresh cache classifies as a
pinch with confidence 1. -/
theorem classify_zero_pinch_distance_witness :
    lmZero 4 = lmZero 8 ∧
      ∃ pos mv, (detect_gestures_one_hand lmZero prevEmpty).1 = Gesture.pinch pos mv 1 :=
  ⟨rfl, classify_zero_pinch_distance lmZero prevEmpty rfl⟩

/-- C7: with a cached positive previous hand distance, a current distance of
1.03 times the previous one yields the `none` event (ratio 1.03 is snapped
to 1.0 by the 0.1 snap threshold, and 1.0 then fails the 0.05 significance
gate), while a current distance of 1.2 times the previous one is forwarded
unchanged as a `two_hand_zoom` event with zoom factor exactly 1.2. -/
theorem two_hand_zoom_gate (prev : PrevPositions) (pd : ℝ)
    (hprev : prev.two_hand_distance = Option.some pd) (hpd : 0 < pd) :
    (∀ left right,
        calculate_distance (hand_center left) (hand_center right) = 1.03 * pd →
        (detect_gestures_two_hands left right prev).1 = Gesture.none) ∧
      (∀ left right,
        calculate_distance (hand_center left) (hand_center right) = 1.2 * pd →
        (detect_gestures_two_hands left right prev).1 =
          Gesture.two_hand_zoom 1.2 (hand_center left) (hand_center right)
            (1.2 * pd)) := by
  constructor
  · intro left right h
    unfold detect_gestures_two_hands detect_two_hand_zoom
    dsimp only
    rw [hprev]
    dsimp only
    rw [h, if_pos hpd]
    have hz : 1.03 * pd / pd = 1.03 := by
      rw [mul_div_assoc, div_self (ne_of_gt hpd), mul_one]
    have hsnap : |(1.03 : ℝ) - 1.0| < zoom_threshold := by
      rw [abs_of_nonneg (by norm_num : (0 : ℝ) ≤ 1.03 - 1.0)]
      norm_num [zoom_threshold]
    rw [hz, if_pos hsnap, if_neg (by norm_num : ¬ |(1 : ℝ) - 1.0| > 0.05)]
  · intro left right h
    unfold detect_gestures_two_hands detect_two_hand_zoom
    dsimp only
    rw [hprev]
    dsimp only
    rw [h, if_pos hpd]
    have hz : 1.2 * pd / pd = 1.2 := by
      rw [mul_div_assoc, div_self (ne_of_gt hpd), mul_one]
    have habs : |(1.2 : ℝ) - 1.0| = 0.2 := by
      rw [abs_of_nonneg (by norm_num : (0 : ℝ) ≤ 1.2 - 1.0)]
      norm_num
    have hsnapneg : ¬ |(1.2 : ℝ) - 1.0| < zoom_threshold := by
      rw [habs]
      norm_num [zoom_threshold]
    have hgate : |(1.2 : ℝ) - 1.0| > 0.05 := by
      rw [habs]
      norm_num
    rw [hz, if_neg hsnapneg, if_pos hgate]

/-- Hand with all landmarks at x = 1.03: its centre is (1.03, 0). -/
noncomputable def lmA : Fin 21 → ℝ × ℝ := fun _ => (1.03, 0)

/-- Hand with all landmarks at x = 1.2: its centre is (1.2, 0). -/
noncomputable def lmB : Fin 21 → ℝ × ℝ := fun _ => (1.2, 0)

/-- Cache with previous two-hand distance 1. -/
def prevOne : PrevPositions := ⟨Option.none, Option.none, Option.some 1⟩

lemma hand_center_const (c : ℝ × ℝ) : hand_center (fun _ => c) = c := by
  unfold hand_center
  rw [Finset.sum_const, Finset.sum_const, Finset.card_univ]
  simp [nsmul_eq_mul]

/-- C7 (witness): with previous distance 1, hands centred at x = 0 and
x = 1.03 (ratio 1.03) are suppressed, and hands centred at x = 0 and x = 1.2
(ratio 1.2) are forwarded with zoom factor 1.2. -/
theorem two_hand_zoom_gate_witness :
    (prevOne.two_hand_distance = Option.some 1 ∧ (0 : ℝ) < 1) ∧
      ((detect_gestures_two_hands lmZero lmA prevOne).1 = Gesture.none ∧
        (detect_gestures_two_hands lmZero lmB prevOne).1 =
          Gesture.two_hand_zoom 1.2 (hand_center lmZero) (hand_center lmB)
            (1.2 * 1)) := by
  have h := two_hand_zoom_gate prevOne 1 rfl one_pos
  have hc0 : hand_center lmZero = (0, 0) := hand_center_const (0, 0)
  have hcA : hand_center lmA = (1.03, 0) := hand_center_const (1.03, 0)
  have hcB : hand_center lmB = (1.2, 0) := hand_center_const (1.2, 0)
  refine ⟨⟨rfl, one_pos⟩, h.1 lmZero lmA ?_, h.2 lmZero lmB ?_⟩
  · rw [hc0, hcA]
    unfold calculate_distance
    rw [show ((0 : ℝ) - 1.03) ^ 2 + ((0 : ℝ) - 0) ^ 2 = 1.03 ^ 2 by norm_num,
      Real.sqrt_sq (by norm_num : (0 : ℝ) ≤ 1.03)]
    norm_num
  · rw [hc0, hcB]
    unfold calculate_distance
    rw [show ((0 : ℝ) - 1.2) ^ 2 + ((0 : ℝ) - 0) ^ 2 = 1.2 ^ 2 by norm_num,
      Real.sqrt_sq (by norm_num : (0 : ℝ) ≤ 1.2)]
    norm_num

/-- The interaction modes of `InteractiveGraphApp.current_mode`. -/
inductive Mode where
  | rotate
  | drag
  | zoom
deriving DecidableEq

/-- `InteractiveGraphApp.apply_gesture_to_graph(gesture_data)`: a pinch event
is routed to `drag_node` only in drag mode, a fist event to `rotate_graph`
only in rotate mode, a two-hand-zoom event to `zoom_graph` only in zoom
mode; the `none` event and every kind/mode mismatch leave the visualizer
state untouched. -/
noncomputable def apply_gesture_to_graph (g : Gesture) (current_mode : Mode)
    (st : OverlayState) : OverlayState :=
  match g with
  | Gesture.none => st
  | Gesture.pinch position movement _ =>
    if current_mode = Mode.drag then drag_node position movement st else st
  | Gesture.fist _ movement _ =>
    if current_mode = Mode.rotate then rotate_graph movement st else st
  | Gesture.two_hand_zoom zf _ _ _ =>
    if current_mode = Mode.zoom then zoom_graph zf st else st

/-- C8: in drag mode a fist event is silently dropped: the dispatch leaves
every node's 3D position — in fact the whole visualizer state — unchanged,
with no error and no queued retry. -/
theorem drag_mode_drops_fist (st : OverlayState) (pos mv : ℝ × ℝ) (conf : ℝ) :
    (∀ n, (apply_gesture_to_graph (Gesture.fist pos mv conf) Mode.drag st).node_positions n
        = st.node_positions n) ∧
      apply_gesture_to_graph (Gesture.fist pos mv conf) Mode.drag st = st := by
  have h : apply_gesture_to_graph (Gesture.fist pos mv conf) Mode.drag st = st := by
    simp [apply_gesture_to_graph]
  exact ⟨fun n => by rw [h], h⟩

/-- File kinds distinguished by the `filepath.endswith` tests of
`GraphVisualizer.load_graph_from_file`. -/
inductive FileKind where
  | json
  | graphml
  | other
deriving DecidableEq

/-- Graph topology as replaced wholesale by `load_graph_from_file` (the
parse result of `nx.node_link_graph` / `nx.read_graphml` is opaque to the
loading logic, which only stores it). -/
abbrev GGraph := List (ℕ × ℕ)

/-- A `{'x': ..., 'y': ..., 'z': ...}` position dict. -/
abbrev Pos3q := ℚ × ℚ × ℚ

/-- State of `GraphVisualizer` relevant to loading: the graph topology and
the node-position dict. -/
structure GVState where
  graph : GGraph
  node_positions : ℕ → Option Pos3q

/-- The position-regeneration loop of `load_graph_from_file`: each laid-out
node's position is overwritten with its coordinates scaled by 2; nodes not
in the layout keep their old entries. -/
def applyLayout (np : ℕ → Option Pos3q) (pos : List (ℕ × Pos3q)) : ℕ → Option Pos3q :=
  pos.foldl (fun acc q => fun n =>
    if n = q.1 then Option.some (q.2.1 * 2, q.2.2.1 * 2, q.2.2.2 * 2) else acc n) np

/-- `GraphVisualizer.load_graph_from_file(filepath)`: an unsupported
extension returns False with the state untouched; a read/parse failure
(exception raised before `self.graph` is assigned) is caught and returns
False with the state untouched; on a successful parse `self.graph` is
assigned first, then the layout is regenerated — a failure raised by the
layout step is caught and returns False with the graph already replaced and
the old positions kept; full success replaces the positions and returns
True. The fallible file read/parse and layout calls are passed as
Except-valued parameters. -/
def load_graph_from_file (ext : FileKind) (parsed : Except Unit GGraph)
    (layout : GGraph → Except Unit (List (ℕ × Pos3q))) (s : GVState) :
    Bool × GVState :=
  match ext with
  | FileKind.other => (false, s)
  | _ =>
    match parsed with
    | Except.error _ => (false, s)
    | Except.ok g =>
      let s1 : GVState := { s with graph := g }
      match layout g with
      | Except.error _ => (false, s1)
      | Except.ok pos =>
        (true, { s1 with node_positions := applyLayout s1.node_positions pos })

/-- Prior state for the loader counterexample: graph [(0,1)], no positions. -/
def gvPrior : GVState := ⟨[(0, 1)], fun _ => Option.none⟩

/-- C4 (counterexample): when the parse succeeds with a new graph [(2,3)]
but the layout regeneration fails, `load_graph_from_file` returns False yet
the graph topology has already been replaced — the prior graph is not left
unmodified, contradicting the claim for layout failures. -/
theorem load_graph_layout_failure_replaces_graph :
    (load_graph_from_file FileKind.json (Except.ok [(2, 3)])
        (fun _ => Except.error ()) gvPrior).1 = false ∧
      (load_graph_from_file FileKind.json (Except.ok [(2, 3)])
        (fun _ => Except.error ()) gvPrior).2.graph = [(2, 3)] ∧
      gvPrior.graph ≠ [(2, 3)] := by
  refine ⟨rfl, rfl, ?_⟩
  decide

/-- C4 (amended): an unsupported extension or a failure during read/parse
(before the graph assignment) leaves the prior state completely unmodified
and returns False; a failure during layout regeneration still returns False
and leaves the prior node positions unmodified, but the graph topology has
by then already been replaced by the newly parsed graph. -/
theorem load_graph_fail_state (ext : FileKind) (parsed : Except Unit GGraph)
    (layout : GGraph → Except Unit (List (ℕ × Pos3q))) (s : GVState) :
    (ext = FileKind.other → load_graph_from_file ext parsed layout s = (false, s)) ∧
      (ext ≠ FileKind.other → parsed = Except.error () →
        load_graph_from_file ext parsed layout s = (false, s)) ∧
      (ext ≠ FileKind.other → ∀ g, parsed = Except.ok g → layout g = Except.error () →
        load_graph_from_file ext parsed layout s = (false, { s with graph := g })) := by
  refine ⟨?_, ?_, ?_⟩
  · intro h
    subst h
    rfl
  · intro hne hp
    subst hp
    cases ext with
    | json => rfl
    | graphml => rfl
    | other => exact absurd rfl hne
  · intro hne g hp hl
    subst hp
    cases ext with
    | json => simp [load_graph_from_file, hl]
    | graphml => simp [load_graph_from_file, hl]
    | other => exact absurd rfl hne

/-- C4 (witness): a read/parse failure on a .json path leaves the prior
state unmodified and returns False. -/
theorem load_graph_fail_state_witness :
    (FileKind.json ≠ FileKind.other ∧
        (Except.error () : Except Unit GGraph) = Except.error ()) ∧
      load_graph_from_file FileKind.json (Except.error ())
        (fun _ => Except.error ()) gvPrior = (false, gvPrior) :=
  ⟨⟨by decide, rfl⟩,
    (load_graph_fail_state FileKind.json (Except.error ())
      (fun _ => Except.error ()) gvPrior).2.1 (by decide) rfl⟩

end IG
